import Mathlib

/-!
Verification of the EVMrs interpreter (src/rust/src/lib.rs, funcs.rs) against
its natural-language specification.  The Rust source is shallowly embedded:
256-bit words become `Nat` with explicit reduction modulo `2 ^ 256`, the
`Vec<U256>` stack becomes a `List Nat` whose index 0 is the *bottom* of the
stack (exactly as in the source, where `push` appends at the end), `HashMap`
becomes an association list, and every place where the Rust code can panic
(`unwrap` on an empty pop or a missing key, out-of-bounds indexing or slicing,
`as_usize` on a word above `2 ^ 64`, overflowing `pow` or `mul`) is modelled
explicitly by the `Outcome.panic` result.  The interpreter loop is driven by
fuel; `Outcome.timeout` marks fuel exhaustion and never occurs on the concrete
runs below.
-/

/-- The modulus of 256-bit words (`U256` in the source). -/
def WORD : Nat := 2 ^ 256

/-- The sign mask `1 << 255` used by the signed helpers in funcs.rs. -/
def MASK : Nat := 2 ^ 255

/-- Wrapping addition, `U256::overflowing_add`. -/
def wadd (a b : Nat) : Nat := (a + b) % WORD

/-- Wrapping multiplication, `U256::overflowing_mul`. -/
def wmul (a b : Nat) : Nat := (a * b) % WORD

/-- Wrapping subtraction, `U256::overflowing_sub` (operands are < WORD). -/
def wsub (a b : Nat) : Nat := (a + WORD - b) % WORD

/-- Two's-complement negation, `U256::overflowing_neg` (operand is < WORD). -/
def wneg (a : Nat) : Nat := (WORD - a) % WORD

/-- Bitwise complement on 256 bits, `!x` on a `U256`. -/
def wnot (a : Nat) : Nat := a ^^^ (WORD - 1)

/-- funcs.rs `sdiv`: two's-complement signed division built on unsigned
division of magnitudes; division by zero yields 0 (`checked_div`). -/
def sdiv (a b : Nat) : Nat :=
  let a_flag := a &&& MASK
  let b_flag := b &&& MASK
  if a_flag &&& b_flag = MASK then
    let a' := wneg a
    let b' := wneg b
    if b' = 0 then 0 else a' / b'
  else if a_flag = 0 ∧ b_flag = 0 then
    if b = 0 then 0 else a / b
  else
    let a' := if a_flag = 0 then a else wneg a
    let b' := if a_flag = 0 then wneg b else b
    let val := if b' = 0 then 0 else a' / b'
    wneg val

/-- funcs.rs `smod`: signed remainder; remainder by zero yields 0. -/
def smod (a b : Nat) : Nat :=
  let a_flag := a &&& MASK
  let b_flag := b &&& MASK
  if a_flag = 0 ∧ b_flag = 0 then
    if b = 0 then 0 else a % b
  else
    let a' := if a_flag = 0 then a else wneg a
    let b' := if a_flag ≠ 0 ∧ b_flag = 0 then b else wneg b
    let val := if b' = 0 then 0 else a' % b'
    wneg val

/-- funcs.rs `slt`: both branches translated literally, including the
both-negative branch that compares the negated magnitudes with `<`. -/
def slt (a b : Nat) : Nat :=
  let a_flag := a &&& MASK
  let b_flag := b &&& MASK
  if a_flag = 0 ∧ b_flag = 0 then
    if a < b then 1 else 0
  else if a_flag = 0 then 0
  else if b_flag = 0 then 1
  else
    if wneg a < wneg b then 1 else 0

/-- funcs.rs `sgt`: translated literally; note that its mixed-sign branches
return the same values as `slt`'s, and its both-negative branch compares the
negated magnitudes with `<` exactly as `slt` does. -/
def sgt (a b : Nat) : Nat :=
  let a_flag := a &&& MASK
  let b_flag := b &&& MASK
  if a_flag = 0 ∧ b_flag = 0 then
    if a > b then 1 else 0
  else if a_flag = 0 then 0
  else if b_flag = 0 then 1
  else
    if wneg a < wneg b then 1 else 0

/-- funcs.rs `signextend`. -/
def signextend (k v : Nat) : Nat :=
  if k < 32 then
    let bit_position := k * 8 + 7
    let mask := 2 ^ bit_position - 1
    if v.testBit bit_position then v ||| wnot mask else v &&& mask
  else v

/-- funcs.rs `sar`: arithmetic shift right; the `U256::MAX << (256 - a)`
wraps on 256 bits exactly as the Rust shift does. -/
def sar (a b : Nat) : Nat :=
  let msb_is_zero := b &&& MASK = 0
  if 256 ≤ a then
    if msb_is_zero then 0 else WORD - 1
  else if msb_is_zero then b >>> a
  else
    let v_zero := b >>> a
    let mask_one := ((WORD - 1) <<< (256 - a)) % WORD
    mask_one ||| v_zero

/-- One scan step of the jump-destination loop in funcs.rs: a `PUSH1..PUSH32`
opcode additionally skips its `(opcode - 0x60) + 1` immediate bytes. -/
def scanStep (code : List Nat) (pc : Nat) : Nat :=
  let opcode := code.getD pc 0
  if 0x60 ≤ opcode ∧ opcode ≤ 0x7f then pc + (opcode - 0x60) + 1 + 1 else pc + 1

/-- The `while` loop of funcs.rs `is_valid_jump_dest`, with explicit fuel
(the loop advances `pc` by at least one per iteration, so
`code.length + 1` fuel always suffices). -/
def jdLoop (code : List Nat) (jump_dest : Nat) : Nat → Nat → Bool
  | 0, _ => false
  | fuel + 1, pc =>
    if pc < code.length then
      let opcode := code.getD pc 0
      if opcode = 0x5b ∧ pc = jump_dest then true
      else jdLoop code jump_dest fuel (scanStep code pc)
    else false

/-- funcs.rs `is_valid_jump_dest`: out-of-bounds destinations are invalid,
otherwise the code is scanned from index 0. -/
def is_valid_jump_dest (code : List Nat) (jump_dest : Nat) : Bool :=
  if code.length ≤ jump_dest then false
  else jdLoop code jump_dest (code.length + 1) 0

/-- The list of byte positions that the linear scan of §4.3 of the spec
visits, starting from `pc` (used to characterise `is_valid_jump_dest`);
a position inside a `PUSHn` immediate is never visited. -/
def scanFrom (code : List Nat) : Nat → Nat → List Nat
  | 0, _ => []
  | fuel + 1, pc =>
    if pc < code.length then pc :: scanFrom code fuel (scanStep code pc)
    else []

/-- All byte positions reached exactly by the linear scan from index 0. -/
def scanList (code : List Nat) : List Nat :=
  scanFrom code (code.length + 1) 0

/-- The result record returned by the interpreter (lib.rs `EvmResult`).
`stack` is reversed (top first) only on the normal fall-through/STOP path;
early returns carry the working stack as is, exactly as in the source. -/
structure EvmResult where
  value : Option (List Nat)
  stack : List Nat
  success : Bool
  return_data : List Nat
deriving Repr, DecidableEq

/-- lib.rs `EvmContext`: optional hex-string block fields. -/
structure EvmContext where
  coinbase : Option String
  basefee : Option String
  timestamp : Option String
  number : Option String
  difficulty : Option String
  gaslimit : Option String
  chainid : Option String
deriving Repr, DecidableEq

/-- lib.rs `TxData`: optional hex-string transaction fields (`from` and `to`
are named `from'` and `to'` because both are Lean keywords). -/
structure TxData where
  data : Option String
  from' : Option String
  to' : Option String
  gasprice : Option String
  origin : Option String
  value : Option String
deriving Repr, DecidableEq

/-- Rust `TxData::default()`: every field `None`. -/
def TxData.default : TxData := ⟨none, none, none, none, none, none⟩

/-- lib.rs `EvmData`: the shared execution context.  The two `HashMap`s are
modelled as association lists with `mapGet`/`mapInsert`/`mapRemove` below. -/
structure EvmData where
  context : Option EvmContext
  tx_data : Option TxData
  state : List (String × String)
  balances : List (String × Nat)
deriving Repr, DecidableEq

/-- Association-list lookup (`HashMap::get`). -/
def mapGet {α : Type} : List (String × α) → String → Option α
  | [], _ => none
  | (k', v) :: rest, k => if k' = k then some v else mapGet rest k

/-- Association-list insertion/replacement (`HashMap::insert`). -/
def mapInsert {α : Type} : List (String × α) → String → α → List (String × α)
  | [], k, v => [(k, v)]
  | (k', v') :: rest, k, v =>
    if k' = k then (k, v) :: rest else (k', v') :: mapInsert rest k v

/-- Association-list removal (`HashMap::remove`). -/
def mapRemove {α : Type} : List (String × α) → String → List (String × α)
  | [], _ => []
  | (k', v') :: rest, k =>
    if k' = k then mapRemove rest k else (k', v') :: mapRemove rest k

/-- lib.rs `EvmMemory`: a byte buffer of fixed capacity 1000 (`vec![0; 1000]`)
plus the high-water mark `size`. -/
structure EvmMemory where
  memory : List Nat
  size : Nat
deriving Repr, DecidableEq

/-- Source `EvmMemory::new()`: 1000 zero bytes, size 0. -/
def EvmMemory.new : EvmMemory := ⟨List.replicate 1000 0, 0⟩

/-- Source `EvmMemory::read_u8s`: reads `size` bytes starting at `offset`; indexing
past the 1000-byte buffer panics (`none`).  The high-water mark is updated
from `end = offset + 31` regardless of `size`, exactly as in the source. -/
def EvmMemory.read_u8s (m : EvmMemory) (offset size : Nat) :
    Option (List Nat × EvmMemory) :=
  if size = 0 ∨ offset + size ≤ m.memory.length then
    let bytes := (List.range size).map (fun i => m.memory.getD (offset + i) 0)
    let e := offset + 31
    some (bytes, ⟨m.memory, max m.size (e + 32 - e % 32)⟩)
  else none

/-- Source `EvmMemory::read_u256`: big-endian fold of `size` bytes at `offset`,
with the same bounds/panic and high-water behaviour as `read_u8s`. -/
def EvmMemory.read_u256 (m : EvmMemory) (offset size : Nat) :
    Option (Nat × EvmMemory) :=
  if size = 0 ∨ offset + size ≤ m.memory.length then
    let v := (List.range size).foldl
      (fun acc i => acc * 256 + m.memory.getD (offset + i) 0) 0
    let e := offset + 31
    some (v, ⟨m.memory, max m.size (e + 32 - e % 32)⟩)
  else none

/-- Source `EvmMemory::write_u8`: writes one byte; an offset at or past the 1000-byte
buffer panics.  Note the high-water mark advances only to
`offset + 32 - offset % 32` (a 32-byte window at `offset`). -/
def EvmMemory.write_u8 (m : EvmMemory) (offset data : Nat) : Option EvmMemory :=
  if offset < m.memory.length then
    some ⟨m.memory.set offset data, max m.size (offset + 32 - offset % 32)⟩
  else none

/-- Source `EvmMemory::msize`. -/
def EvmMemory.msize (m : EvmMemory) : Nat := m.size

/-- Rust `U256::as_usize`: panics (`none`) when the word exceeds `usize::MAX`. -/
def asUsize (n : Nat) : Option Nat := if n < 2 ^ 64 then some n else none

/-- Pop from the source's `Vec<U256>` stack: index 0 is the bottom, the top
is the last element.  `none` models `pop()` returning `None`. -/
def popW (s : List Nat) : Option (Nat × List Nat) :=
  match s.getLast? with
  | some v => some (v, s.dropLast)
  | none => none

/-- Push onto the source's stack (append at the end). -/
def pushW (s : List Nat) (v : Nat) : List Nat := s ++ [v]

/-- Two `pop().unwrap()`s in a row; `none` models the panic. -/
def pop2W (s : List Nat) : Option (Nat × Nat × List Nat) :=
  match popW s with
  | none => none
  | some (a, s1) =>
    match popW s1 with
    | none => none
    | some (b, s2) => some (a, b, s2)

/-- Three `pop().unwrap()`s in a row. -/
def pop3W (s : List Nat) : Option (Nat × Nat × Nat × List Nat) :=
  match pop2W s with
  | none => none
  | some (a, b, s2) =>
    match popW s2 with
    | none => none
    | some (c, s3) => some (a, b, c, s3)

/-- Performs `n` discarding `pop().unwrap()`s (used by the LOG opcodes). -/
def popNW : Nat → List Nat → Option (List Nat)
  | 0, s => some s
  | n + 1, s =>
    match popW s with
    | none => none
    | some (_, s') => popNW n s'

/-- Rust `Vec::swap(i, j)` (both indices are in bounds wherever the source calls
it, after its explicit length check). -/
def listSwap (l : List Nat) (i j : Nat) : List Nat :=
  (l.set i (l.getD j 0)).set j (l.getD i 0)

/-- Value of a single hexadecimal digit. -/
def hexDigit (c : Char) : Option Nat :=
  if '0' ≤ c ∧ c ≤ '9' then some (c.toNat - '0'.toNat)
  else if 'a' ≤ c ∧ c ≤ 'f' then some (c.toNat - 'a'.toNat + 10)
  else if 'A' ≤ c ∧ c ≤ 'F' then some (c.toNat - 'A'.toNat + 10)
  else none

/-- Fold a list of hex digits into a number; any non-digit fails. -/
def hexParseCore (cs : List Char) : Option Nat :=
  cs.foldl
    (fun acc c =>
      match acc, hexDigit c with
      | some a, some d => some (a * 16 + d)
      | _, _ => none)
    (some 0)

/-- Rust `U256::from_str_radix(s, 16)`: strips an optional `0x` prefix, rejects
the empty string, any non-hex character and overflow past 2^256. -/
def from_str_radix16 (s : String) : Option Nat :=
  let cs := s.data
  let cs := if cs.take 2 = ['0', 'x'] then cs.drop 2 else cs
  if cs = [] then none
  else
    match hexParseCore cs with
    | some v => if v < WORD then some v else none
    | none => none

/-- Rust `u8::from_str_radix(chunk, 16)` on a 1-2 character chunk. -/
def u8FromHex (s : String) : Option Nat := hexParseCore s.data

/-- Rust `str::as_bytes().chunks(2)` on a hex string: successive chunks of two
characters, the last possibly a single character. -/
def chunk2 : List Char → List String
  | [] => []
  | [c] => [String.mk [c]]
  | c :: d :: rest => String.mk [c, d] :: chunk2 rest

/-- Rust `hex::decode`: fails on odd length or non-hex characters. -/
def hexDecode (s : String) : Option (List Nat) :=
  hexDecodeCore s.data
where
  hexDecodeCore : List Char → Option (List Nat)
    | [] => some []
    | [_] => none
    | c :: d :: rest =>
      match hexDigit c, hexDigit d, hexDecodeCore rest with
      | some hc, some hd, some bs => some ((hc * 16 + hd) :: bs)
      | _, _, _ => none

/-- The 32 big-endian bytes of a word (`value.byte(31 - i)` for i = 0..31). -/
def wordBytesBE (v : Nat) : List Nat :=
  (List.range 32).map (fun i => (v >>> (8 * (31 - i))) % 256)

/-- Resolve an optional tx field and hex-parse it; `none` models a panic on
a missing field or an unparsable string. -/
def txField (d : EvmData) (f : TxData → Option String) : Option Nat :=
  (d.tx_data.bind f).bind from_str_radix16

/-- Resolve an optional block-context field and hex-parse it. -/
def ctxField (d : EvmData) (f : EvmContext → Option String) : Option Nat :=
  (d.context.bind f).bind from_str_radix16

/-- Modelled from the spec: the Keccak-256 primitive is an external
collaborator of the repository ("treated as an opaque byte-string→32-byte
function", §1 of the spec); its digest value is irrelevant to every claim, so
it is modelled as the constant-zero digest. -/
def keccak256 (_ : List Nat) : Nat := 0

/-- The observable outcome of running a frame: a returned `EvmResult`
together with the final shared context (the source mutates `data` through
`&mut`), a Rust panic, or fuel exhaustion of the model. -/
inductive Outcome where
  | ok (r : EvmResult) (d : EvmData)
  | panic
  | timeout
deriving Repr, DecidableEq

/-- The source's copy loops `for i in 0..count { memory.write_u8(dest + i,
bytes[i]) }`: an index past `bytes` or a write past the buffer panics. -/
def writeLoop : EvmMemory → Nat → List Nat → Nat → Nat → Option EvmMemory
  | mem, _, _, _, 0 => some mem
  | mem, dest, bytes, i, count + 1 =>
    match bytes.get? i with
    | none => none
    | some b =>
      match mem.write_u8 (dest + i) b with
      | none => none
      | some mem' => writeLoop mem' dest bytes (i + 1) count

/-- The copy loops that additionally parse each two-character hex chunk with
`u8::from_str_radix` before writing (CALLDATACOPY, EXTCODECOPY). -/
def writeHexLoop : EvmMemory → Nat → List String → Nat → Nat → Option EvmMemory
  | mem, _, _, _, 0 => some mem
  | mem, dest, chunks, i, count + 1 =>
    match chunks.get? i with
    | none => none
    | some s =>
      match u8FromHex s with
      | none => none
      | some b =>
        match mem.write_u8 (dest + i) b with
        | none => none
        | some mem' => writeHexLoop mem' dest chunks (i + 1) count

/-- The instructions of the dispatch chain of lib.rs `evm`, one constructor
per arm of the source's `if opcode == … else if …` chain.  The `push`, `dup`,
`swap` and `log` constructors carry the amount the source derives from the
opcode byte (`opcode - 0x5f`, `opcode - 0x80 + 1`, `opcode - 0x90 + 1`,
`opcode - 0xa0`); `unknown` is the final `else` arm that only prints. -/
inductive Instr where
  | stop | add | mul | sub | div | sdiv | mod | smod | addmod | mulmod
  | exp | signextend
  | lt | gt | slt | sgt | eq | iszero
  | and | or | xor | not | byte | shl | shr | sar
  | sha3
  | address | balance | origin | caller | callvalue | calldataload
  | calldatasize | calldatacopy | codesize | codecopy | gasprice
  | extcodesize | extcodecopy | returndatasize | returndatacopy | extcodehash
  | blockhash | coinbase | timestamp | number | difficulty | gaslimit
  | chainid | selfbalance | basefee
  | pop | mload | mstore | mstore8 | sload | sstore | jump | jumpi
  | pc | msize | gas | jumpdest
  | push (n : Nat) | dup (n : Nat) | swap (n : Nat) | log (n : Nat)
  | create | call | callcode | ret | delegatecall | create2 | staticcall
  | revert | invalid | selfdestruct
  | unknown
deriving Repr

/-- The dispatch chain of lib.rs `evm`, in source order: which arm handles a
given opcode byte.  Any byte without an arm decodes to `.unknown`. -/
def decode (op : Nat) : Instr :=
  if op = 0x00 then .stop
  else if op = 0x01 then .add
  else if op = 0x02 then .mul
  else if op = 0x03 then .sub
  else if op = 0x04 then .div
  else if op = 0x05 then .sdiv
  else if op = 0x06 then .mod
  else if op = 0x07 then .smod
  else if op = 0x08 then .addmod
  else if op = 0x09 then .mulmod
  else if op = 0x0a then .exp
  else if op = 0x0b then .signextend
  else if op = 0x10 then .lt
  else if op = 0x11 then .gt
  else if op = 0x12 then .slt
  else if op = 0x13 then .sgt
  else if op = 0x14 then .eq
  else if op = 0x15 then .iszero
  else if op = 0x16 then .and
  else if op = 0x17 then .or
  else if op = 0x18 then .xor
  else if op = 0x19 then .not
  else if op = 0x1a then .byte
  else if op = 0x1b then .shl
  else if op = 0x1c then .shr
  else if op = 0x1d then .sar
  else if op = 0x20 then .sha3
  else if op = 0x30 then .address
  else if op = 0x31 then .balance
  else if op = 0x32 then .origin
  else if op = 0x33 then .caller
  else if op = 0x34 then .callvalue
  else if op = 0x35 then .calldataload
  else if op = 0x36 then .calldatasize
  else if op = 0x37 then .calldatacopy
  else if op = 0x38 then .codesize
  else if op = 0x39 then .codecopy
  else if op = 0x3a then .gasprice
  else if op = 0x3b then .extcodesize
  else if op = 0x3c then .extcodecopy
  else if op = 0x3d then .returndatasize
  else if op = 0x3e then .returndatacopy
  else if op = 0x3f then .extcodehash
  else if op = 0x40 then .blockhash
  else if op = 0x41 then .coinbase
  else if op = 0x42 then .timestamp
  else if op = 0x43 then .number
  else if op = 0x44 then .difficulty
  else if op = 0x45 then .gaslimit
  else if op = 0x46 then .chainid
  else if op = 0x47 then .selfbalance
  else if op = 0x48 then .basefee
  else if op = 0x50 then .pop
  else if op = 0x51 then .mload
  else if op = 0x52 then .mstore
  else if op = 0x53 then .mstore8
  else if op = 0x54 then .sload
  else if op = 0x55 then .sstore
  else if op = 0x56 then .jump
  else if op = 0x57 then .jumpi
  else if op = 0x58 then .pc
  else if op = 0x59 then .msize
  else if op = 0x5a then .gas
  else if op = 0x5b then .jumpdest
  else if 0x5f ≤ op ∧ op ≤ 0x7f then .push (op - 0x5f)
  else if 0x80 ≤ op ∧ op ≤ 0x8f then .dup (op - 0x80 + 1)
  else if 0x90 ≤ op ∧ op ≤ 0x9f then .swap (op - 0x90 + 1)
  else if 0xa0 ≤ op ∧ op ≤ 0xa4 then .log (op - 0xa0)
  else if op = 0xf0 then .create
  else if op = 0xf1 then .call
  else if op = 0xf2 then .callcode
  else if op = 0xf3 then .ret
  else if op = 0xf4 then .delegatecall
  else if op = 0xf5 then .create2
  else if op = 0xfa then .staticcall
  else if op = 0xfd then .revert
  else if op = 0xfe then .invalid
  else if op = 0xff then .selfdestruct
  else .unknown

/-- The interpreter loop of lib.rs `evm`, one fuel unit per iteration and
per recursive call.  Arguments after the fuel: the code, the `writable`
flag, then the frame state `pc`, `stack` (bottom at index 0), `memory`,
`return_data`, and the shared `EvmData`.  Every arm is a literal
transcription of the corresponding arm of the source's dispatch chain,
including each place where the source can panic. -/
def evmLoop : Nat → List Nat → Bool → Nat → List Nat → EvmMemory → List Nat → EvmData → Outcome
  | 0, _, _, _, _, _, _, _ => .timeout
  | fuel + 1, code, writable, pc, stack, mem, retd, d =>
    if pc < code.length then
      match decode (code.getD pc 0) with
      | .stop =>
        .ok ⟨none, stack.reverse, true, []⟩ d
      | .add =>
        match pop2W stack with
        | none => .panic
        | some (a, b, s) =>
          evmLoop fuel code writable (pc + 1) (pushW s (wadd a b)) mem retd d
      | .mul =>
        match pop2W stack with
        | none => .panic
        | some (a, b, s) =>
          evmLoop fuel code writable (pc + 1) (pushW s (wmul a b)) mem retd d
      | .sub =>
        match pop2W stack with
        | none => .panic
        | some (a, b, s) =>
          evmLoop fuel code writable (pc + 1) (pushW s (wsub a b)) mem retd d
      | .div =>
        match pop2W stack with
        | none => .panic
        | some (a, b, s) =>
          evmLoop fuel code writable (pc + 1)
            (pushW s (if b = 0 then 0 else a / b)) mem retd d
      | .sdiv =>
        match pop2W stack with
        | none => .panic
        | some (a, b, s) =>
          evmLoop fuel code writable (pc + 1) (pushW s (sdiv a b)) mem retd d
      | .mod =>
        match pop2W stack with
        | none => .panic
        | some (a, b, s) =>
          evmLoop fuel code writable (pc + 1)
            (pushW s (if b = 0 then 0 else a % b)) mem retd d
      | .smod =>
        match pop2W stack with
        | none => .panic
        | some (a, b, s) =>
          evmLoop fuel code writable (pc + 1) (pushW s (smod a b)) mem retd d
      | .addmod =>
        match pop3W stack with
        | none => .panic
        | some (a, b, n, s) =>
          evmLoop fuel code writable (pc + 1)
            (pushW s (if n = 0 then 0 else wadd a b % n)) mem retd d
      | .mulmod =>
        match pop3W stack with
        | none => .panic
        | some (a, b, n, s) =>
          evmLoop fuel code writable (pc + 1)
            (pushW s (if n = 0 then 0 else a * b % n)) mem retd d
      | .exp =>
        match pop2W stack with
        | none => .panic
        | some (a, exponent, s) =>
          if a ^ exponent < WORD then
            evmLoop fuel code writable (pc + 1) (pushW s (a ^ exponent)) mem retd d
          else .panic
      | .signextend =>
        match pop2W stack with
        | none => .panic
        | some (k, v, s) =>
          evmLoop fuel code writable (pc + 1) (pushW s (signextend k v)) mem retd d
      | .lt =>
        match pop2W stack with
        | none => .panic
        | some (a, b, s) =>
          evmLoop fuel code writable (pc + 1)
            (pushW s (if a < b then 1 else 0)) mem retd d
      | .gt =>
        match pop2W stack with
        | none => .panic
        | some (a, b, s) =>
          evmLoop fuel code writable (pc + 1)
            (pushW s (if b < a then 1 else 0)) mem retd d
      | .slt =>
        match pop2W stack with
        | none => .panic
        | some (a, b, s) =>
          evmLoop fuel code writable (pc + 1) (pushW s (slt a b)) mem retd d
      | .sgt =>
        match pop2W stack with
        | none => .panic
        | some (a, b, s) =>
          evmLoop fuel code writable (pc + 1) (pushW s (sgt a b)) mem retd d
      | .eq =>
        match pop2W stack with
        | none => .panic
        | some (a, b, s) =>
          evmLoop fuel code writable (pc + 1)
            (pushW s (if a = b then 1 else 0)) mem retd d
      | .iszero =>
        match popW stack with
        | none => .panic
        | some (a, s) =>
          evmLoop fuel code writable (pc + 1)
            (pushW s (if a = 0 then 1 else 0)) mem retd d
      | .and =>
        match pop2W stack with
        | none => .panic
        | some (a, b, s) =>
          evmLoop fuel code writable (pc + 1) (pushW s (a &&& b)) mem retd d
      | .or =>
        match pop2W stack with
        | none => .panic
        | some (a, b, s) =>
          evmLoop fuel code writable (pc + 1) (pushW s (a ||| b)) mem retd d
      | .xor =>
        match pop2W stack with
        | none => .panic
        | some (a, b, s) =>
          evmLoop fuel code writable (pc + 1) (pushW s (a ^^^ b)) mem retd d
      | .not =>
        match popW stack with
        | none => .panic
        | some (a, s) =>
          evmLoop fuel code writable (pc + 1) (pushW s (wnot a)) mem retd d
      | .byte =>
        match pop2W stack with
        | none => .panic
        | some (i, x, s) =>
          if WORD ≤ i * 8 then .panic
          else if 256 ≤ i * 8 then
            evmLoop fuel code writable (pc + 1) (pushW s 0) mem retd d
          else
            evmLoop fuel code writable (pc + 1)
              (pushW s ((x >>> (256 - 8 - i * 8)) &&& 0xFF)) mem retd d
      | .shl =>
        match pop2W stack with
        | none => .panic
        | some (shift, value, s) =>
          if 256 ≤ shift then
            evmLoop fuel code writable (pc + 1) (pushW s 0) mem retd d
          else
            evmLoop fuel code writable (pc + 1)
              (pushW s ((value <<< shift) % WORD)) mem retd d
      | .shr =>
        match pop2W stack with
        | none => .panic
        | some (shift, value, s) =>
          if 256 ≤ shift then
            evmLoop fuel code writable (pc + 1) (pushW s 0) mem retd d
          else
            evmLoop fuel code writable (pc + 1) (pushW s (value >>> shift)) mem retd d
      | .sar =>
        match pop2W stack with
        | none => .panic
        | some (shift, value, s) =>
          evmLoop fuel code writable (pc + 1) (pushW s (sar shift value)) mem retd d
      | .sha3 =>
        match pop2W stack with
        | none => .panic
        | some (offset, size, s) =>
          match asUsize offset with
          | none => .panic
          | some ou =>
            match asUsize size with
            | none => .panic
            | some su =>
              match mem.read_u8s ou su with
              | none => .panic
              | some (bytes, mem') =>
                evmLoop fuel code writable (pc + 1) (pushW s (keccak256 bytes)) mem' retd d
      | .address =>
        match txField d (fun t => t.to') with
        | none => .panic
        | some v => evmLoop fuel code writable (pc + 1) (pushW stack v) mem retd d
      | .balance =>
        match popW stack with
        | none => .panic
        | some (address, s) =>
          evmLoop fuel code writable (pc + 1)
            (pushW s ((mapGet d.balances (Nat.repr address)).getD 0)) mem retd d
      | .origin =>
        match txField d (fun t => t.origin) with
        | none => .panic
        | some v => evmLoop fuel code writable (pc + 1) (pushW stack v) mem retd d
      | .caller =>
        match d.tx_data with
        | none => .panic
        | some tx =>
          match (match tx.from' with
                 | some address => some address
                 | none => tx.to').bind from_str_radix16 with
          | none => .panic
          | some v => evmLoop fuel code writable (pc + 1) (pushW stack v) mem retd d
      | .callvalue =>
        match txField d (fun t => t.value) with
        | none => .panic
        | some v => evmLoop fuel code writable (pc + 1) (pushW stack v) mem retd d
      | .calldataload =>
        match popW stack with
        | none => .panic
        | some (i, s) =>
          match d.tx_data with
          | none => .panic
          | some tx =>
            match tx.data with
            | none => .panic
            | some ds =>
              let bytes := chunk2 ds.data
              match asUsize i with
              | none => .panic
              | some iu =>
                if bytes.length < iu then .panic
                else
                  let dataChunks := bytes.drop iu
                  let padded :=
                    if dataChunks.length < 32 then
                      dataChunks ++ List.replicate (32 - dataChunks.length) "00"
                    else dataChunks.take 32
                  match from_str_radix16 (String.join padded) with
                  | none => .panic
                  | some v => evmLoop fuel code writable (pc + 1) (pushW s v) mem retd d
      | .calldatasize =>
        match d.tx_data with
        | some tx =>
          match tx.data with
          | none => .panic
          | some ds =>
            evmLoop fuel code writable (pc + 1)
              (pushW stack (chunk2 ds.data).length) mem retd d
        | none => evmLoop fuel code writable (pc + 1) (pushW stack 0) mem retd d
      | .calldatacopy =>
        match pop3W stack with
        | none => .panic
        | some (dest_offset, source_offset, size, s) =>
          match d.tx_data with
          | none => .panic
          | some tx =>
            match tx.data with
            | none => .panic
            | some ds =>
              let bytes := chunk2 ds.data
              match asUsize source_offset with
              | none => .panic
              | some srcu =>
                if bytes.length < srcu then .panic
                else
                  let dataChunks := bytes.drop srcu
                  match asUsize size with
                  | none => .panic
                  | some su =>
                    if su = 0 then evmLoop fuel code writable (pc + 1) s mem retd d
                    else
                      match asUsize dest_offset with
                      | none => .panic
                      | some du =>
                        match writeHexLoop mem du dataChunks 0 su with
                        | none => .panic
                        | some mem' => evmLoop fuel code writable (pc + 1) s mem' retd d
      | .codesize =>
        evmLoop fuel code writable (pc + 1) (pushW stack code.length) mem retd d
      | .codecopy =>
        match pop3W stack with
        | none => .panic
        | some (dest_offset, source_offset, size, s) =>
          match asUsize size with
          | none => .panic
          | some su =>
            match asUsize source_offset with
            | none => .panic
            | some srcu =>
              if code.length < srcu then .panic
              else
                let c0 := code.drop srcu
                let code_to_copy :=
                  if c0.length < su then c0 ++ List.replicate (su - c0.length) 0
                  else c0.take su
                if su = 0 then evmLoop fuel code writable (pc + 1) s mem retd d
                else
                  match asUsize dest_offset with
                  | none => .panic
                  | some du =>
                    match writeLoop mem du code_to_copy 0 su with
                    | none => .panic
                    | some mem' => evmLoop fuel code writable (pc + 1) s mem' retd d
      | .gasprice =>
        match txField d (fun t => t.gasprice) with
        | none => .panic
        | some v => evmLoop fuel code writable (pc + 1) (pushW stack v) mem retd d
      | .extcodesize =>
        match popW stack with
        | none => .panic
        | some (address, s) =>
          match mapGet d.state (Nat.repr address) with
          | some sz =>
            match from_str_radix16 sz with
            | none => .panic
            | some v => evmLoop fuel code writable (pc + 1) (pushW s v) mem retd d
          | none => evmLoop fuel code writable (pc + 1) (pushW s 0) mem retd d
      | .extcodecopy =>
        match pop3W stack with
        | none => .panic
        | some (address, dest_offset, source_offset, s3) =>
          match popW s3 with
          | none => .panic
          | some (size, s) =>
            match asUsize size with
            | none => .panic
            | some su =>
              match mapGet d.state (Nat.repr address) with
              | none => .panic
              | some extcode =>
                let bytes := chunk2 extcode.data
                match asUsize source_offset with
                | none => .panic
                | some srcu =>
                  if bytes.length < srcu then .panic
                  else
                    let extdata := bytes.drop srcu
                    if su = 0 then evmLoop fuel code writable (pc + 1) s mem retd d
                    else
                      match asUsize dest_offset with
                      | none => .panic
                      | some du =>
                        match writeHexLoop mem du extdata 0 su with
                        | none => .panic
                        | some mem' => evmLoop fuel code writable (pc + 1) s mem' retd d
      | .returndatasize =>
        evmLoop fuel code writable (pc + 1) (pushW stack retd.length) mem retd d
      | .returndatacopy =>
        match pop3W stack with
        | none => .panic
        | some (dest_offset, source_offset, size, s) =>
          match asUsize dest_offset with
          | none => .panic
          | some du =>
            match asUsize source_offset with
            | none => .panic
            | some srcu =>
              match asUsize size with
              | none => .panic
              | some su =>
                if retd.length < srcu + su then .panic
                else
                  let data := (retd.drop srcu).take su
                  match writeLoop mem du data 0 su with
                  | none => .panic
                  | some mem' => evmLoop fuel code writable (pc + 1) s mem' retd d
      | .extcodehash =>
        match popW stack with
        | none => .panic
        | some (address, s) =>
          if (mapGet d.state (Nat.repr address)).isSome then
            evmLoop fuel code writable (pc + 1)
              (pushW s 0x29045A592007D0C246EF02C2223570DA9522D0CF0F73282C79A1BC8F0BB2C238)
              mem retd d
          else evmLoop fuel code writable (pc + 1) (pushW s 0) mem retd d
      | .blockhash =>
        evmLoop fuel code writable (pc + 1) stack mem retd d
      | .coinbase =>
        match ctxField d (fun c => c.coinbase) with
        | none => .panic
        | some v => evmLoop fuel code writable (pc + 1) (pushW stack v) mem retd d
      | .timestamp =>
        match ctxField d (fun c => c.timestamp) with
        | none => .panic
        | some v => evmLoop fuel code writable (pc + 1) (pushW stack v) mem retd d
      | .number =>
        match ctxField d (fun c => c.number) with
        | none => .panic
        | some v => evmLoop fuel code writable (pc + 1) (pushW stack v) mem retd d
      | .difficulty =>
        match ctxField d (fun c => c.difficulty) with
        | none => .panic
        | some v => evmLoop fuel code writable (pc + 1) (pushW stack v) mem retd d
      | .gaslimit =>
        match ctxField d (fun c => c.gaslimit) with
        | none => .panic
        | some v => evmLoop fuel code writable (pc + 1) (pushW stack v) mem retd d
      | .chainid =>
        match ctxField d (fun c => c.chainid) with
        | none => .panic
        | some v => evmLoop fuel code writable (pc + 1) (pushW stack v) mem retd d
      | .selfbalance =>
        match d.tx_data with
        | none => .panic
        | some tx =>
          match tx.to' with
          | none => .panic
          | some address =>
            evmLoop fuel code writable (pc + 1)
              (pushW stack ((mapGet d.balances address).getD 0)) mem retd d
      | .basefee =>
        match ctxField d (fun c => c.basefee) with
        | none => .panic
        | some v => evmLoop fuel code writable (pc + 1) (pushW stack v) mem retd d
      | .pop =>
        evmLoop fuel code writable (pc + 1) stack.dropLast mem retd d
      | .mload =>
        match popW stack with
        | none => .panic
        | some (a, s) =>
          match asUsize a with
          | none => .panic
          | some au =>
            match mem.read_u256 au 32 with
            | none => .panic
            | some (value, mem') =>
              evmLoop fuel code writable (pc + 1) (pushW s value) mem' retd d
      | .mstore =>
        match pop2W stack with
        | none => .panic
        | some (index, value, s) =>
          match asUsize index with
          | none => .panic
          | some iu =>
            match writeLoop mem iu (wordBytesBE value) 0 32 with
            | none => .panic
            | some mem' => evmLoop fuel code writable (pc + 1) s mem' retd d
      | .mstore8 =>
        match pop2W stack with
        | none => .panic
        | some (a, value, s) =>
          match asUsize a with
          | none => .panic
          | some index =>
            match mem.write_u8 index (value % 256) with
            | none => .panic
            | some mem' => evmLoop fuel code writable (pc + 1) s mem' retd d
      | .sload =>
        match popW stack with
        | none => .panic
        | some (key, s) =>
          match mapGet d.state (Nat.repr key) with
          | some v =>
            match from_str_radix16 v with
            | none => .panic
            | some x => evmLoop fuel code writable (pc + 1) (pushW s x) mem retd d
          | none => evmLoop fuel code writable (pc + 1) (pushW s 0) mem retd d
      | .sstore =>
        if writable = false then .ok ⟨none, stack, false, []⟩ d
        else
          match pop2W stack with
          | none => .panic
          | some (key, value, s) =>
            let d' :=
              if value = 0 then { d with state := mapRemove d.state (Nat.repr key) }
              else { d with state := mapInsert d.state (Nat.repr key) (Nat.repr value) }
            evmLoop fuel code writable (pc + 1) s mem retd d'
      | .jump =>
        match popW stack with
        | none => .panic
        | some (dest, s) =>
          match asUsize dest with
          | none => .panic
          | some du =>
            if is_valid_jump_dest code du = false then .ok ⟨none, s, false, []⟩ d
            else evmLoop fuel code writable du s mem retd d
      | .jumpi =>
        match popW stack with
        | none => .panic
        | some (dest, s1) =>
          match asUsize dest with
          | none => .panic
          | some du =>
            match popW s1 with
            | none => .panic
            | some (cond, s2) =>
              if is_valid_jump_dest code du = false then .ok ⟨none, s2, false, []⟩ d
              else if cond ≠ 0 then evmLoop fuel code writable du s2 mem retd d
              else evmLoop fuel code writable (pc + 1) s2 mem retd d
      | .pc =>
        evmLoop fuel code writable (pc + 1) (pushW stack (pc + 1 - 1)) mem retd d
      | .msize =>
        evmLoop fuel code writable (pc + 1) (pushW stack mem.msize) mem retd d
      | .gas =>
        evmLoop fuel code writable (pc + 1) (pushW stack (WORD - 1)) mem retd d
      | .jumpdest =>
        evmLoop fuel code writable (pc + 1) stack mem retd d
      | .push n =>
        if n = 0 then evmLoop fuel code writable (pc + 1) (pushW stack 0) mem retd d
        else if code.length < pc + 1 + n then .panic
        else
          let r := (code.drop (pc + 1)).take n
          evmLoop fuel code writable (pc + 1 + n)
            (pushW stack (r.foldl (fun acc b => acc * 256 + b) 0)) mem retd d
      | .dup n =>
        if stack.length < n then .ok ⟨none, stack, false, []⟩ d
        else
          evmLoop fuel code writable (pc + 1)
            (pushW stack (stack.getD (stack.length - n) 0)) mem retd d
      | .swap n =>
        if stack.length < n + 1 then .ok ⟨none, stack, false, []⟩ d
        else evmLoop fuel code writable (pc + 1) (listSwap stack n 0) mem retd d
      | .log n =>
        if writable = false then .ok ⟨none, stack, false, []⟩ d
        else
          match pop2W stack with
          | none => .panic
          | some (_offset, _size, s2) =>
            match popNW n s2 with
            | none => .panic
            | some s3 => evmLoop fuel code writable (pc + 1) s3 mem retd d
      | .create =>
        if writable = false then .ok ⟨none, stack, false, []⟩ d
        else
          match popW stack with
          | none => .panic
          | some (value, s1) =>
            match popW s1 with
            | none => .panic
            | some (u_offset, s2) =>
              match asUsize u_offset with
              | none => .panic
              | some _args_offset =>
                match popW s2 with
                | none => .panic
                | some (sz, s3) =>
                  match asUsize sz with
                  | none => .panic
                  | some _args_size =>
                    match d.tx_data with
                    | none => .panic
                    | some tx =>
                      match tx.to' with
                      | none => .panic
                      | some toStr =>
                        if toStr = "0x9bbfed6889322e016e0a02ee459d306fc19545d9" then
                          .ok ⟨none, pushW s3 0, true, []⟩ d
                        else
                          let d' := { d with
                            balances := mapInsert d.balances (Nat.repr u_offset) value,
                            state := mapInsert d.state (Nat.repr u_offset)
                              "ffffffff00000000000000000000000000000000000000000000000000000000" }
                          evmLoop fuel code writable (pc + 1) (pushW s3 u_offset) mem retd d'
      | .call =>
        if writable = false then .ok ⟨none, stack, false, []⟩ d
        else
          match pop3W stack with
          | none => .panic
          | some (_gas, toAddr, _value, s3) =>
            match pop2W s3 with
            | none => .panic
            | some (_args_offset, _args_size, s5) =>
              match popW s5 with
              | none => .panic
              | some (ro, s6) =>
                match asUsize ro with
                | none => .panic
                | some ret_offset =>
                  match popW s6 with
                  | none => .panic
                  | some (rs, s7) =>
                    match asUsize rs with
                    | none => .panic
                    | some ret_size =>
                      match mapGet d.state (Nat.repr toAddr) with
                      | none => .panic
                      | some code_str =>
                        match hexDecode code_str with
                        | none => .panic
                        | some callee =>
                          match evmLoop fuel callee true 0 [] EvmMemory.new [] d with
                          | .timeout => .timeout
                          | .panic => .panic
                          | .ok res d' =>
                            match res.value with
                            | some val =>
                              match writeLoop mem ret_offset val 0 ret_size with
                              | none => .panic
                              | some mem' =>
                                evmLoop fuel code writable (pc + 1)
                                  (pushW s7 (if res.success then 1 else 0)) mem'
                                  res.return_data d'
                            | none =>
                              evmLoop fuel code writable (pc + 1) (pushW s7 0) mem
                                res.return_data d'
      | .callcode =>
        evmLoop fuel code writable (pc + 1) stack mem retd d
      | .ret =>
        match pop2W stack with
        | none => .panic
        | some (offset, return_size, s) =>
          match asUsize offset with
          | none => .panic
          | some ou =>
            match asUsize return_size with
            | none => .panic
            | some su =>
              match mem.read_u8s ou su with
              | none => .panic
              | some (ret, _mem') => .ok ⟨some ret, s, true, ret⟩ d
      | .delegatecall =>
        match pop2W stack with
        | none => .panic
        | some (_gas, toAddr, s2) =>
          match pop2W s2 with
          | none => .panic
          | some (_args_offset, _args_size, s4) =>
            match popW s4 with
            | none => .panic
            | some (ro, s5) =>
              match asUsize ro with
              | none => .panic
              | some ret_offset =>
                match popW s5 with
                | none => .panic
                | some (rs, s6) =>
                  match asUsize rs with
                  | none => .panic
                  | some ret_size =>
                    match mapGet d.state (Nat.repr toAddr) with
                    | none => .panic
                    | some code_str =>
                      match hexDecode code_str with
                      | none => .panic
                      | some callee =>
                        let ntx : TxData := ⟨none, none, some (Nat.repr toAddr), none, none, none⟩
                        let new_data := { d with tx_data := some ntx }
                        match evmLoop fuel callee true 0 [] EvmMemory.new [] new_data with
                        | .timeout => .timeout
                        | .panic => .panic
                        | .ok res _ =>
                          match writeLoop mem ret_offset res.return_data 0 ret_size with
                          | none => .panic
                          | some mem' =>
                            evmLoop fuel code writable (pc + 1) (pushW s6 1) mem'
                              res.return_data d
      | .create2 =>
        if writable = false then .ok ⟨none, stack, false, []⟩ d
        else evmLoop fuel code writable (pc + 1) stack mem retd d
      | .staticcall =>
        match pop2W stack with
        | none => .panic
        | some (_gas, address, s2) =>
          match pop2W s2 with
          | none => .panic
          | some (_args_offset, _args_size, s4) =>
            match popW s4 with
            | none => .panic
            | some (ro, s5) =>
              match asUsize ro with
              | none => .panic
              | some ret_offset =>
                match popW s5 with
                | none => .panic
                | some (rs, s6) =>
                  match asUsize rs with
                  | none => .panic
                  | some ret_size =>
                    match mapGet d.state (Nat.repr address) with
                    | none => .panic
                    | some code_str =>
                      match hexDecode code_str with
                      | none => .panic
                      | some callee =>
                        match evmLoop fuel callee false 0 [] EvmMemory.new [] d with
                        | .timeout => .timeout
                        | .panic => .panic
                        | .ok res d' =>
                          match res.value with
                          | some val =>
                            match writeLoop mem ret_offset val 0 ret_size with
                            | none => .panic
                            | some mem' =>
                              evmLoop fuel code writable (pc + 1)
                                (pushW s6 (if res.success then 1 else 0)) mem'
                                res.return_data d'
                          | none =>
                            evmLoop fuel code writable (pc + 1) (pushW s6 0) mem
                              res.return_data d'
      | .revert =>
        match pop2W stack with
        | none => .panic
        | some (offset, return_size, s) =>
          match asUsize offset with
          | none => .panic
          | some ou =>
            match asUsize return_size with
            | none => .panic
            | some su =>
              match mem.read_u8s ou su with
              | none => .panic
              | some (ret, _mem') => .ok ⟨some ret, s, false, []⟩ d
      | .invalid =>
        .ok ⟨none, stack, false, []⟩ d
      | .selfdestruct =>
        match popW stack with
        | none => .panic
        | some (address, s) =>
          let d' := { d with
            state := mapRemove d.state "1271253980042238172183243620132319847648413671085",
            balances := mapInsert d.balances (Nat.repr address) 7 }
          .ok ⟨none, s, false, []⟩ d'
      | .unknown =>
        evmLoop fuel code writable (pc + 1) stack mem retd d
    else
      .ok ⟨none, stack.reverse, true, []⟩ d

/-- lib.rs `evm(code, data, writable)`: a fresh frame with empty stack,
fresh memory and empty return data, starting at `pc = 0`. -/
def evm (fuel : Nat) (code : List Nat) (d : EvmData) (writable : Bool) : Outcome :=
  evmLoop fuel code writable 0 [] EvmMemory.new [] d

set_option maxRecDepth 100000

/-- The claim-side rounding function: round up to the next multiple of 32. -/
def ceil32 (x : Nat) : Nat := ((x + 31) / 32) * 32

/-- An empty execution context: no block, no transaction, empty storage and
balances. -/
def emptyData : EvmData := ⟨none, none, [], []⟩

/-- C1: the spec's underflow policy fails on the code.  `ADD` (0x01) on an
empty stack and on a one-element stack does not halt the frame with a
failure `EvmResult`: the source's `stack.pop().unwrap()` panics, which the
embedding reports as `Outcome.panic`, a different behaviour from the
`success=false / value=None / empty return_data` result the claim demands
(only `DUPn` and `SWAPn` carry the explicit underflow check). -/
theorem C1_add_underflow_panics :
    evm 3 [0x01] emptyData true = Outcome.panic ∧
    evm 5 [0x60, 0x05, 0x01] emptyData true = Outcome.panic :=
  ⟨rfl, rfl⟩

/-- C3: the claimed identity `SLT(a,b) XOR SGT(a,b) = 1 iff a ≠ b` fails.
With a = 2^256 − 1 (signed −1) and b = 2^256 − 2 (signed −2) the code
returns `slt = 1` and `sgt = 1` (XOR 0) although a ≠ b, because funcs.rs
`slt` compares the negated magnitudes with `<` exactly as `sgt` does.
With a = 1 and b = 2^255 (negative) both return 0 (XOR 0 again), and with
a = 2^255, b = 1 both return 1, so a negative operand compares as the
*greater* one under `sgt`, contradicting the claim's second part. -/
theorem C3_slt_sgt_xor_fails :
    (slt (WORD - 1) (WORD - 2) = 1 ∧ sgt (WORD - 1) (WORD - 2) = 1 ∧
      WORD - 1 ≠ WORD - 2) ∧
    (slt 1 MASK = 0 ∧ sgt 1 MASK = 0 ∧ (1 : Nat) ≠ MASK) ∧
    (slt MASK 1 = 1 ∧ sgt MASK 1 = 1) :=
  ⟨⟨rfl, rfl, by decide⟩, ⟨rfl, rfl, by decide⟩, rfl, rfl⟩

/-- C4: the SSTORE/SLOAD round trip fails for v = 10.  `SSTORE(0, 10)`
stores the decimal rendering "10" (`value.to_string()`), and `SLOAD(0)`
re-parses it as hexadecimal (`from_str_radix(v, 16)`), pushing 16 instead
of 10.  The store-zero-deletes half of the claim does hold (second
conjunct: storing 0 removes the key and SLOAD pushes 0). -/
theorem C4_sstore_sload_mismatch :
    evm 20 [0x60, 0x0a, 0x60, 0x00, 0x55, 0x60, 0x00, 0x54] emptyData true =
      Outcome.ok ⟨none, [16], true, []⟩ ⟨none, none, [("0", "10")], []⟩ ∧
    evm 20 [0x60, 0x0a, 0x60, 0x00, 0x55, 0x60, 0x00, 0x60, 0x00, 0x55,
        0x60, 0x00, 0x54] emptyData true =
      Outcome.ok ⟨none, [0], true, []⟩ emptyData :=
  ⟨rfl, rfl⟩

/-- C5: memory is not conceptually infinite.  The backing buffer is the
fixed `vec![0; 1000]`, so `MSTORE8` at offset 1000 indexes out of bounds
and panics instead of succeeding; the claim's "succeed at every offset o"
fails at o = 1000. -/
theorem C5_memory_write_oob_panics :
    evm 20 [0x60, 0xAA, 0x61, 0x03, 0xE8, 0x53] emptyData true = Outcome.panic ∧
    EvmMemory.new.memory.length = 1000 :=
  ⟨rfl, rfl⟩

/-- The CALL scenario for C7: address 5 holds the code "00", a bare STOP. -/
def c7Data : EvmData := ⟨none, none, [("5", "00")], []⟩

/-- C7: a callee that halts successfully via STOP (value = None,
success = true, first conjunct) makes the caller push 0, not 1: the CALL
arm pushes `res.success` only when `res.value.is_some()` and pushes 0
otherwise.  The second conjunct runs CALL with that callee and ends with
0 on the caller's stack, contradicting the claim's "pushes 1 iff the
callee frame reports success=true". -/
theorem C7_call_stop_callee_pushes_zero :
    evm 5 [0x00] c7Data true = Outcome.ok ⟨none, [], true, []⟩ c7Data ∧
    evm 40 [0x60, 0, 0x60, 0, 0x60, 0, 0x60, 0, 0x60, 0, 0x60, 5, 0x60, 0, 0xf1]
        c7Data true =
      Outcome.ok ⟨none, [0], true, []⟩ c7Data :=
  ⟨rfl, rfl⟩

/-- C2 counterexample: `PUSH1 1; PUSH1 2; PUSH1 3; SWAP1` ends with the
reversed (top-first) stack `[3, 1, 2]`: the source's `stack.swap(1, 0)`
exchanged the two *bottom* elements 1 and 2 and left the top 3 in place.
The claim (swap top with the 2nd from top) demands final top-first stack
`[2, 3, 1]`, which differs. -/
theorem C2_swap1_counterexample :
    evm 20 [0x60, 1, 0x60, 2, 0x60, 3, 0x90] emptyData true =
      Outcome.ok ⟨none, [3, 1, 2], true, []⟩ emptyData ∧
    ([3, 1, 2] : List Nat) ≠ [2, 3, 1] :=
  ⟨rfl, by decide⟩

/-- C6 counterexample: `PUSH9 0x010000000000000000; JUMP` pops the invalid
destination 2^64, and the interpreter panics (`as_usize` overflow) instead
of halting the frame with the failure result the claim demands. -/
theorem C6_jump_huge_dest_panics :
    evm 20 [0x68, 1, 0, 0, 0, 0, 0, 0, 0, 0, 0x56] emptyData true = Outcome.panic ∧
    Outcome.panic ≠ Outcome.ok ⟨none, [], false, []⟩ emptyData :=
  ⟨rfl, by decide⟩

/-- C9 counterexample: `PUSH1 0xAA; PUSH1 1; MSTORE8; MSIZE` pushes 32:
the single-byte write at offset 1 advances the high-water mark only to
`1 + 32 - 1 % 32 = 32`, not to the claimed `ceil_to_32(1 + 32) = 64`. -/
theorem C9_mstore8_msize_counterexample :
    evm 20 [0x60, 0xAA, 0x60, 0x01, 0x53, 0x59] emptyData true =
      Outcome.ok ⟨none, [32], true, []⟩ emptyData ∧
    (32 : Nat) ≠ ceil32 (1 + 32) :=
  ⟨rfl, by decide⟩

/-- Popping a pushed value returns it with the remaining stack. -/
theorem popW_concat (l : List Nat) (a : Nat) : popW (l ++ [a]) = some (a, l) := by
  simp [popW, List.getLast?_concat, List.dropLast_concat]

/-- Two pops on a stack of at least two values. -/
theorem pop2W_concat (l : List Nat) (a b : Nat) :
    pop2W (l ++ [a, b]) = some (b, a, l) := by
  have h : l ++ [a, b] = (l ++ [a]) ++ [b] := by simp
  simp only [pop2W, h, popW_concat]

/-- Three pops on a stack of at least three values. -/
theorem pop3W_concat (l : List Nat) (a b c : Nat) :
    pop3W (l ++ [a, b, c]) = some (c, b, a, l) := by
  have h : l ++ [a, b, c] = (l ++ [a]) ++ [b, c] := by simp
  simp only [pop3W, h, pop2W_concat, popW_concat]

/-- A byte fetched inside the code is a member of the code. -/
theorem getD_mem_of_lt (c : List Nat) (pc : Nat) (h : pc < c.length) :
    c.getD pc 0 ∈ c := by
  rw [List.getD_eq_getElem?_getD, List.getElem?_eq_getElem h]
  exact List.getElem_mem h

/-- Reading with `getD` after `set` at the written index. -/
theorem getD_set_self (l : List Nat) (i a : Nat) (h : i < l.length) :
    (l.set i a).getD i 0 = a := by
  rw [List.getD_eq_getElem?_getD]
  simp [List.getElem?_set_self', List.getElem?_eq_getElem h]

/-- Reading with `getD` after `set` at a different index. -/
theorem getD_set_ne (l : List Nat) (i j a : Nat) (h : i ≠ j) :
    (l.set i a).getD j 0 = l.getD j 0 := by
  rw [List.getD_eq_getElem?_getD, List.getD_eq_getElem?_getD,
    List.getElem?_set_ne h]

/-- Rust `Vec::swap` preserves the length. -/
theorem listSwap_length (l : List Nat) (i j : Nat) :
    (listSwap l i j).length = l.length := by
  simp [listSwap]

/-- After `swap i j` (with distinct in-bounds indices) position `j` holds the
old value of position `i`. -/
theorem listSwap_getD_snd (l : List Nat) (i j : Nat) (hj : j < l.length)
    (hne : i ≠ j) : (listSwap l i j).getD j 0 = l.getD i 0 := by
  unfold listSwap
  rw [getD_set_self]
  simpa using hj

/-- After `swap i j` (with distinct in-bounds indices) position `i` holds the
old value of position `j`. -/
theorem listSwap_getD_fst (l : List Nat) (i j : Nat) (hi : i < l.length)
    (hne : i ≠ j) : (listSwap l i j).getD i 0 = l.getD j 0 := by
  unfold listSwap
  rw [getD_set_ne _ _ _ _ (by omega), getD_set_self _ _ _ hi]

/-- Swapping `i` and `j` leaves every other position unchanged. -/
theorem listSwap_getD_other (l : List Nat) (i j k : Nat) (h1 : k ≠ i)
    (h2 : k ≠ j) : (listSwap l i j).getD k 0 = l.getD k 0 := by
  unfold listSwap
  rw [getD_set_ne _ _ _ _ (by omega), getD_set_ne _ _ _ _ (by omega)]

/-- A `SWAPn` opcode byte decodes to `.swap` with `n = opcode - 0x90 + 1`. -/
theorem decode_swap_opcode (j : Nat) (h : j ≤ 15) :
    decode (0x90 + j) = Instr.swap (j + 1) := by
  interval_cases j <;> rfl

/-- Falling off the end of the code (the `while pc < code.len()` guard)
returns success with the reversed stack and empty return data. -/
theorem evmLoop_done (fuel pc : Nat) (code : List Nat) (w : Bool)
    (stack : List Nat) (mem : EvmMemory) (retd : List Nat) (d : EvmData)
    (h : ¬ pc < code.length) :
    evmLoop (fuel + 1) code w pc stack mem retd d =
      Outcome.ok ⟨none, stack.reverse, true, []⟩ d := by
  rw [evmLoop, if_neg h]

/-- An unknown (final `else` arm) opcode leaves the whole frame unchanged
and execution continues at the next byte. -/
theorem step_unknown (fuel pc : Nat) (code : List Nat) (w : Bool)
    (stack : List Nat) (mem : EvmMemory) (retd : List Nat) (d : EvmData)
    (hpc : pc < code.length) (hop : decode (code.getD pc 0) = Instr.unknown) :
    evmLoop (fuel + 1) code w pc stack mem retd d =
      evmLoop fuel code w (pc + 1) stack mem retd d := by
  simp only [evmLoop, hop, hpc, if_true]

/-- Running code made only of unknown opcodes falls through and succeeds,
returning the (reversed) starting stack. -/
theorem evmLoop_unknown_run (code : List Nat) (w : Bool) (d : EvmData)
    (h : ∀ b ∈ code, decode b = Instr.unknown) :
    ∀ (fuel pc : Nat) (stack : List Nat) (mem : EvmMemory) (retd : List Nat),
      code.length ≤ pc + fuel →
      evmLoop (fuel + 1) code w pc stack mem retd d =
        Outcome.ok ⟨none, stack.reverse, true, []⟩ d := by
  intro fuel
  induction fuel with
  | zero =>
    intro pc stack mem retd hle
    exact evmLoop_done 0 pc code w stack mem retd d (by omega)
  | succ n ih =>
    intro pc stack mem retd hle
    by_cases hpc : pc < code.length
    · rw [step_unknown (n + 1) pc code w stack mem retd d hpc
        (h _ (getD_mem_of_lt code pc hpc))]
      exact ih (pc + 1) stack mem retd (by omega)
    · exact evmLoop_done (n + 1) pc code w stack mem retd d hpc

/-- C10: an opcode byte without an implemented handler (the dispatch chain's
final `else`, `decode b = .unknown`) does not halt with failure: the step
leaves stack, memory, return data and the shared context (storage, balances)
unchanged and continues at the next byte (first conjunct); a code string made
only of such bytes falls through and returns `success = true` with an empty
stack (second conjunct); and all the example bytes of the claim —
0x0c–0x0f, 0x21–0x2f, 0x49–0x4f, 0xf6–0xf9, 0xfb–0xfc — are indeed unknown
(third conjunct). -/
theorem C10_unknown_opcode_skips :
    (∀ (fuel pc : Nat) (code : List Nat) (w : Bool) (stack : List Nat)
        (mem : EvmMemory) (retd : List Nat) (d : EvmData),
      pc < code.length → decode (code.getD pc 0) = Instr.unknown →
      evmLoop (fuel + 1) code w pc stack mem retd d =
        evmLoop fuel code w (pc + 1) stack mem retd d)
    ∧ (∀ (code : List Nat) (d : EvmData) (w : Bool),
      (∀ b ∈ code, decode b = Instr.unknown) →
      evm (code.length + 1) code d w = Outcome.ok ⟨none, [], true, []⟩ d)
    ∧ (∀ b ∈ ([0x0c, 0x0d, 0x0e, 0x0f,
        0x21, 0x22, 0x23, 0x24, 0x25, 0x26, 0x27, 0x28, 0x29, 0x2a, 0x2b,
        0x2c, 0x2d, 0x2e, 0x2f,
        0x49, 0x4a, 0x4b, 0x4c, 0x4d, 0x4e, 0x4f,
        0xf6, 0xf7, 0xf8, 0xf9, 0xfb, 0xfc] : List Nat),
      decode b = Instr.unknown) := by
  refine ⟨fun fuel pc code w stack mem retd d hpc hop =>
      step_unknown fuel pc code w stack mem retd d hpc hop,
    fun code d w h => ?_, fun b hb => ?_⟩
  · simpa using evmLoop_unknown_run code w d h code.length 0 [] EvmMemory.new [] (by omega)
  · fin_cases hb <;> rfl

/-- C10 witness: one unknown step on the concrete byte 0x0c, and a full run
of the two-byte unknown-only program `0x0c 0xfb`. -/
theorem C10_unknown_opcode_skips_witness :
    evmLoop 1 [0x0c] true 0 [] EvmMemory.new [] emptyData =
      evmLoop 0 [0x0c] true 1 [] EvmMemory.new [] emptyData ∧
    evm ([0x0c, 0xfb].length + 1) [0x0c, 0xfb] emptyData true =
      Outcome.ok ⟨none, [], true, []⟩ emptyData :=
  ⟨C10_unknown_opcode_skips.1 0 0 [0x0c] true [] EvmMemory.new [] emptyData
      (by decide) rfl,
    C10_unknown_opcode_skips.2.1 [0x0c, 0xfb] emptyData true
      (by intro b hb; fin_cases hb <;> rfl)⟩

/-- C8: (first conjunct) in a non-writable frame, reaching SSTORE halts the
frame immediately with `success = false` and returns the shared context
`d` untouched — the general protection property; (second conjunct) the
claim's concrete scenario: STATICCALL from a writable caller into code
`6001600055` (PUSH1 1; PUSH1 0; SSTORE) at address 7, for *any* remaining
storage, context, transaction and balances, pushes 0 onto the caller's
stack and leaves the whole `EvmData` — in particular the storage map —
exactly as it was. -/
theorem C8_staticcall_sstore_protected :
    (∀ (fuel pc : Nat) (code : List Nat) (stack : List Nat) (mem : EvmMemory)
        (retd : List Nat) (d : EvmData),
      pc < code.length → code.getD pc 0 = 0x55 →
      evmLoop (fuel + 1) code false pc stack mem retd d =
        Outcome.ok ⟨none, stack, false, []⟩ d)
    ∧ (∀ (rest : List (String × String)) (ctx : Option EvmContext)
        (tx : Option TxData) (bal : List (String × Nat)),
      evm 20 [0x60, 0, 0x60, 0, 0x60, 0, 0x60, 0, 0x60, 7, 0x60, 0, 0xfa]
          ⟨ctx, tx, ("7", "6001600055") :: rest, bal⟩ true =
        Outcome.ok ⟨none, [0], true, []⟩
          ⟨ctx, tx, ("7", "6001600055") :: rest, bal⟩) := by
  constructor
  · intro fuel pc code stack mem retd d hpc hop
    have hdec : decode (code.getD pc 0) = Instr.sstore := by rw [hop]; rfl
    simp only [evmLoop, hdec, hpc, if_true]
  · intro rest ctx tx bal
    rfl

/-- C8 witness: the SSTORE protection step on the one-byte program `0x55`
and the STATICCALL scenario with empty remaining context. -/
theorem C8_staticcall_sstore_protected_witness :
    evmLoop 1 [0x55] false 0 [] EvmMemory.new [] emptyData =
      Outcome.ok ⟨none, [], false, []⟩ emptyData ∧
    evm 20 [0x60, 0, 0x60, 0, 0x60, 0, 0x60, 0, 0x60, 7, 0x60, 0, 0xfa]
        ⟨none, none, [("7", "6001600055")], []⟩ true =
      Outcome.ok ⟨none, [0], true, []⟩ ⟨none, none, [("7", "6001600055")], []⟩ :=
  ⟨C8_staticcall_sstore_protected.1 0 0 [0x55] [] EvmMemory.new [] emptyData
      (by decide) rfl,
    C8_staticcall_sstore_protected.2 [] none none []⟩

/-- Writing with `write_u8` in bounds: the byte is stored and the high-water mark becomes
`max size (32 · (⌊o/32⌋ + 1))`, i.e. the end of the 32-byte window at `o`. -/
theorem write_u8_eq (m : EvmMemory) (o b : Nat) (h : o < m.memory.length) :
    m.write_u8 o b = some ⟨m.memory.set o b, max m.size (32 * (o / 32 + 1))⟩ := by
  simp only [EvmMemory.write_u8, h, if_true]
  have e : o + 32 - o % 32 = 32 * (o / 32 + 1) := by omega
  rw [e]

/-- Reading with `read_u8s` in bounds: the bytes are read and the high-water mark becomes
`max size (ceil32 (o + 32))`. -/
theorem read_u8s_eq (m : EvmMemory) (o sz : Nat)
    (h : sz = 0 ∨ o + sz ≤ m.memory.length) :
    m.read_u8s o sz =
      some ((List.range sz).map (fun i => m.memory.getD (o + i) 0),
        ⟨m.memory, max m.size (ceil32 (o + 32))⟩) := by
  simp only [EvmMemory.read_u8s, h, if_true]
  have e : o + 31 + 32 - (o + 31) % 32 = ceil32 (o + 32) := by
    unfold ceil32
    omega
  rw [e]

/-- C9 (amended): the high-water mark update depends on the kind of access.
(1) A single-byte write at offset o (`write_u8`, hence MSTORE8) sets
`size := max size (32·(⌊o/32⌋+1))`, (2) which equals `ceil_to_32(o + 1)` —
not the claimed `ceil_to_32(o + 32)`.  (3) A ranged read starting at offset
o (`read_u8s`) does set `size := max size (ceil_to_32 (o + 32))` as claimed.
(4) MSIZE pushes exactly the current mark, and (5) the MSTORE8 step realises
the `write_u8` update inside the interpreter. -/
theorem C9_amended_highwater_mark :
    (∀ (m : EvmMemory) (o b : Nat), o < m.memory.length →
      m.write_u8 o b = some ⟨m.memory.set o b, max m.size (32 * (o / 32 + 1))⟩)
    ∧ (∀ o : Nat, 32 * (o / 32 + 1) = ceil32 (o + 1))
    ∧ (∀ (m : EvmMemory) (o sz : Nat), sz = 0 ∨ o + sz ≤ m.memory.length →
      ∃ bs, m.read_u8s o sz = some (bs, ⟨m.memory, max m.size (ceil32 (o + 32))⟩))
    ∧ (∀ (fuel pc : Nat) (code : List Nat) (w : Bool) (stack : List Nat)
        (mem : EvmMemory) (retd : List Nat) (d : EvmData),
      pc < code.length → code.getD pc 0 = 0x59 →
      evmLoop (fuel + 1) code w pc stack mem retd d =
        evmLoop fuel code w (pc + 1) (pushW stack mem.size) mem retd d)
    ∧ (∀ (fuel pc : Nat) (code : List Nat) (w : Bool) (s : List Nat)
        (v o : Nat) (mem : EvmMemory) (retd : List Nat) (d : EvmData),
      pc < code.length → code.getD pc 0 = 0x53 → o < 2 ^ 64 →
      o < mem.memory.length →
      evmLoop (fuel + 1) code w pc (s ++ [v, o]) mem retd d =
        evmLoop fuel code w (pc + 1) s
          ⟨mem.memory.set o (v % 256), max mem.size (32 * (o / 32 + 1))⟩ retd d) := by
  refine ⟨write_u8_eq, fun o => ?_, fun m o sz h => ⟨_, read_u8s_eq m o sz h⟩,
    fun fuel pc code w stack mem retd d hpc hop => ?_,
    fun fuel pc code w s v o mem retd d hpc hop ho hm => ?_⟩
  · unfold ceil32
    omega
  · have hdec : decode (code.getD pc 0) = Instr.msize := by rw [hop]; rfl
    simp only [evmLoop, hdec, hpc, if_true, EvmMemory.msize]
  · have hdec : decode (code.getD pc 0) = Instr.mstore8 := by rw [hop]; rfl
    simp only [evmLoop, hdec, hpc, if_true, pop2W_concat, asUsize, ho,
      write_u8_eq mem o (v % 256) hm]

/-- C9 witness: the `write_u8`/`read_u8s` mark updates at offset 33 of a
fresh memory, the MSIZE step and the MSTORE8 step on concrete one-opcode
programs. -/
theorem C9_amended_highwater_mark_witness :
    EvmMemory.new.write_u8 33 7 =
      some ⟨EvmMemory.new.memory.set 33 7, max EvmMemory.new.size (32 * (33 / 32 + 1))⟩ ∧
    (∃ bs, EvmMemory.new.read_u8s 33 2 =
      some (bs, ⟨EvmMemory.new.memory, max EvmMemory.new.size (ceil32 (33 + 32))⟩)) ∧
    evmLoop 1 [0x59] true 0 [] EvmMemory.new [] emptyData =
      evmLoop 0 [0x59] true 1 (pushW [] EvmMemory.new.size) EvmMemory.new [] emptyData ∧
    evmLoop 1 [0x53] true 0 ([] ++ [7, 33]) EvmMemory.new [] emptyData =
      evmLoop 0 [0x53] true 1 []
        ⟨EvmMemory.new.memory.set 33 (7 % 256),
          max EvmMemory.new.size (32 * (33 / 32 + 1))⟩ [] emptyData :=
  ⟨C9_amended_highwater_mark.1 EvmMemory.new 33 7 (by decide),
    C9_amended_highwater_mark.2.2.1 EvmMemory.new 33 2 (by right; decide),
    C9_amended_highwater_mark.2.2.2.1 0 0 [0x59] true [] EvmMemory.new [] emptyData
      (by decide) rfl,
    C9_amended_highwater_mark.2.2.2.2 0 0 [0x53] true [] 7 33 EvmMemory.new []
      emptyData (by decide) rfl (by decide) (by decide)⟩

/-- C2 (amended): `SWAPn` (opcode 0x90 + j, N = j + 1) on a stack of fewer
than N+1 items halts the frame with failure; on a stack of at least N+1
items it exchanges the element at index N with the element at index 0,
both counted from the *bottom* of the stack (`stack.swap(swap_number, 0)`),
leaving length and every other element unchanged.  This coincides with the
claimed top-relative swap (top with the (N+1)-th from the top) exactly when
the stack holds exactly N+1 items (last conjunct). -/
theorem C2_amended_swap_semantics :
    ∀ (fuel pc j : Nat) (code : List Nat) (w : Bool) (stack : List Nat)
      (mem : EvmMemory) (retd : List Nat) (d : EvmData),
    j ≤ 15 → pc < code.length → code.getD pc 0 = 0x90 + j →
    (stack.length < j + 2 →
      evmLoop (fuel + 1) code w pc stack mem retd d =
        Outcome.ok ⟨none, stack, false, []⟩ d)
    ∧ (j + 2 ≤ stack.length →
      evmLoop (fuel + 1) code w pc stack mem retd d =
        evmLoop fuel code w (pc + 1) (listSwap stack (j + 1) 0) mem retd d
      ∧ (listSwap stack (j + 1) 0).length = stack.length
      ∧ (listSwap stack (j + 1) 0).getD 0 0 = stack.getD (j + 1) 0
      ∧ (listSwap stack (j + 1) 0).getD (j + 1) 0 = stack.getD 0 0
      ∧ (∀ i, i ≠ 0 → i ≠ j + 1 →
          (listSwap stack (j + 1) 0).getD i 0 = stack.getD i 0)
      ∧ (stack.length = j + 2 →
          listSwap stack (j + 1) 0 =
            listSwap stack (stack.length - 1) (stack.length - 1 - (j + 1)))) := by
  intro fuel pc j code w stack mem retd d hj hpc hop
  have hdec : decode (code.getD pc 0) = Instr.swap (j + 1) := by
    rw [hop]
    exact decode_swap_opcode j hj
  constructor
  · intro hlt
    simp only [evmLoop, hdec, hpc, if_true]
    rw [if_pos (by omega : stack.length < j + 1 + 1)]
  · intro hge
    refine ⟨?_, listSwap_length stack (j + 1) 0,
      listSwap_getD_snd stack (j + 1) 0 (by omega) (by omega),
      listSwap_getD_fst stack (j + 1) 0 (by omega) (by omega),
      fun i h1 h2 => listSwap_getD_other stack (j + 1) 0 i h2 h1,
      fun hlen => ?_⟩
    · simp only [evmLoop, hdec, hpc, if_true]
      rw [if_neg (by omega : ¬ stack.length < j + 1 + 1)]
    · have e1 : stack.length - 1 = j + 1 := by omega
      have e2 : stack.length - 1 - (j + 1) = 0 := by omega
      rw [e2, e1]

/-- C2 witness: SWAP1 (0x90, j = 0) halting on a one-element stack, and
performing the bottom-indexed swap on the two-element stack `[1, 2]`. -/
theorem C2_amended_swap_semantics_witness :
    evmLoop 1 [0x90] true 0 [5] EvmMemory.new [] emptyData =
      Outcome.ok ⟨none, [5], false, []⟩ emptyData ∧
    evmLoop 1 [0x90] true 0 [1, 2] EvmMemory.new [] emptyData =
      evmLoop 0 [0x90] true 1 (listSwap [1, 2] 1 0) EvmMemory.new [] emptyData :=
  ⟨(C2_amended_swap_semantics 0 0 0 [0x90] true [5] EvmMemory.new [] emptyData
      (by decide) (by decide) rfl).1 (by decide),
    ((C2_amended_swap_semantics 0 0 0 [0x90] true [1, 2] EvmMemory.new [] emptyData
      (by decide) (by decide) rfl).2 (by decide)).1⟩

/-- The scan always advances. -/
theorem scanStep_gt (code : List Nat) (pc : Nat) : pc < scanStep code pc := by
  simp only [scanStep]
  split_ifs <;> omega

/-- Scan positions lie inside the code. -/
theorem scanFrom_mem_lt (code : List Nat) :
    ∀ (fuel pc x : Nat), x ∈ scanFrom code fuel pc → x < code.length := by
  intro fuel
  induction fuel with
  | zero =>
    intro pc x hx
    simp [scanFrom] at hx
  | succ n ih =>
    intro pc x hx
    by_cases hpc : pc < code.length
    · simp only [scanFrom, hpc, if_true, List.mem_cons] at hx
      rcases hx with rfl | hx
      · exact hpc
      · exact ih _ _ hx
    · simp [scanFrom, hpc] at hx

/-- Scan positions are at or after the starting position. -/
theorem scanFrom_mem_ge (code : List Nat) :
    ∀ (fuel pc x : Nat), x ∈ scanFrom code fuel pc → pc ≤ x := by
  intro fuel
  induction fuel with
  | zero =>
    intro pc x hx
    simp [scanFrom] at hx
  | succ n ih =>
    intro pc x hx
    by_cases hpc : pc < code.length
    · simp only [scanFrom, hpc, if_true, List.mem_cons] at hx
      rcases hx with rfl | hx
      · exact Nat.le_refl x
      · have h1 := ih _ _ hx
        have h2 := scanStep_gt code pc
        omega
    · simp [scanFrom, hpc] at hx

/-- No scan position lies strictly between a scan position `q` and
`scanStep code q`: the scan skips `q`'s immediate bytes in one step. -/
theorem scanFrom_gap (code : List Nat) :
    ∀ (fuel pc q x : Nat), q ∈ scanFrom code fuel pc →
      x ∈ scanFrom code fuel pc → x ≤ q ∨ scanStep code q ≤ x := by
  intro fuel
  induction fuel with
  | zero =>
    intro pc q x hq _
    simp [scanFrom] at hq
  | succ n ih =>
    intro pc q x hq hx
    by_cases hpc : pc < code.length
    · simp only [scanFrom, hpc, if_true, List.mem_cons] at hq hx
      rcases hq with rfl | hq
      · rcases hx with rfl | hx
        · left
          exact Nat.le_refl x
        · right
          exact scanFrom_mem_ge code n (scanStep code q) x hx
      · rcases hx with rfl | hx
        · left
          have h1 := scanFrom_mem_ge code n (scanStep code x) q hq
          have h2 := scanStep_gt code x
          omega
        · exact ih _ q x hq hx
    · simp [scanFrom, hpc] at hq

/-- The source's scan loop finds `dest` iff the linear scan visits `dest`
exactly and the byte there is 0x5b. -/
theorem jdLoop_iff (code : List Nat) (dest : Nat) :
    ∀ (fuel pc : Nat),
      jdLoop code dest fuel pc = true ↔
        dest ∈ scanFrom code fuel pc ∧ code.getD dest 0 = 0x5b := by
  intro fuel
  induction fuel with
  | zero =>
    intro pc
    simp [jdLoop, scanFrom]
  | succ n ih =>
    intro pc
    by_cases hpc : pc < code.length
    · simp only [jdLoop, scanFrom, hpc, if_true]
      by_cases hcond : code.getD pc 0 = 0x5b ∧ pc = dest
      · rw [if_pos hcond]
        obtain ⟨h5, rfl⟩ := hcond
        exact ⟨fun _ => ⟨List.mem_cons_self pc _, h5⟩, fun _ => rfl⟩
      · rw [if_neg hcond, ih]
        constructor
        · rintro ⟨hmem, h5⟩
          exact ⟨List.mem_cons_of_mem _ hmem, h5⟩
        · rintro ⟨hmem, h5⟩
          rcases List.mem_cons.mp hmem with rfl | hmem
          · exact absurd ⟨h5, rfl⟩ hcond
          · exact ⟨hmem, h5⟩
    · simp [jdLoop, scanFrom, hpc]

/-- funcs.rs `is_valid_jump_dest` characterised by the claim's description:
valid iff the linear scan from index 0 (skipping PUSH immediates) reaches
the destination exactly and the byte there is 0x5b. -/
theorem is_valid_jump_dest_iff (code : List Nat) (dest : Nat) :
    is_valid_jump_dest code dest = true ↔
      dest ∈ scanList code ∧ code.getD dest 0 = 0x5b := by
  unfold is_valid_jump_dest scanList
  by_cases h : code.length ≤ dest
  · rw [if_pos h]
    simp only [Bool.false_eq_true, false_iff]
    rintro ⟨hmem, _⟩
    have := scanFrom_mem_lt code _ _ _ hmem
    omega
  · rw [if_neg h]
    exact jdLoop_iff code dest _ 0

/-- C6 (amended): provided the popped destination fits in 64 bits
(`as_usize`; a larger destination makes the interpreter panic instead of
halting with failure, see the counterexample), jump semantics are exactly
as claimed: (1) JUMP sets pc to the destination iff it is valid and halts
the frame with failure otherwise; (2) JUMPI checks validity first and halts
on an invalid destination regardless of the condition — including
condition = 0 — and jumps iff the condition is non-zero; (3) a destination
is valid iff the linear scan of the code from index 0 (skipping
PUSH1..PUSH32 immediates) reaches it exactly and the byte there is 0x5b;
(4) hence a byte lying strictly inside a PUSHn immediate is never a valid
destination, even if it is 0x5b. -/
theorem C6_amended_jump_semantics :
    (∀ (fuel pc : Nat) (code : List Nat) (w : Bool) (s : List Nat) (dest : Nat)
        (mem : EvmMemory) (retd : List Nat) (d : EvmData),
      pc < code.length → code.getD pc 0 = 0x56 → dest < 2 ^ 64 →
      (is_valid_jump_dest code dest = true →
        evmLoop (fuel + 1) code w pc (s ++ [dest]) mem retd d =
          evmLoop fuel code w dest s mem retd d)
      ∧ (is_valid_jump_dest code dest = false →
        evmLoop (fuel + 1) code w pc (s ++ [dest]) mem retd d =
          Outcome.ok ⟨none, s, false, []⟩ d))
    ∧ (∀ (fuel pc : Nat) (code : List Nat) (w : Bool) (s : List Nat)
        (cond dest : Nat) (mem : EvmMemory) (retd : List Nat) (d : EvmData),
      pc < code.length → code.getD pc 0 = 0x57 → dest < 2 ^ 64 →
      (is_valid_jump_dest code dest = false →
        evmLoop (fuel + 1) code w pc (s ++ [cond, dest]) mem retd d =
          Outcome.ok ⟨none, s, false, []⟩ d)
      ∧ (is_valid_jump_dest code dest = true → cond ≠ 0 →
        evmLoop (fuel + 1) code w pc (s ++ [cond, dest]) mem retd d =
          evmLoop fuel code w dest s mem retd d)
      ∧ (is_valid_jump_dest code dest = true → cond = 0 →
        evmLoop (fuel + 1) code w pc (s ++ [cond, dest]) mem retd d =
          evmLoop fuel code w (pc + 1) s mem retd d))
    ∧ (∀ (code : List Nat) (dest : Nat),
      is_valid_jump_dest code dest = true ↔
        dest ∈ scanList code ∧ code.getD dest 0 = 0x5b)
    ∧ (∀ (code : List Nat) (q dest : Nat),
      q ∈ scanList code → 0x60 ≤ code.getD q 0 → code.getD q 0 ≤ 0x7f →
      q < dest → dest ≤ q + (code.getD q 0 - 0x60) + 1 →
      is_valid_jump_dest code dest = false) := by
  refine ⟨?_, ?_, is_valid_jump_dest_iff, ?_⟩
  · intro fuel pc code w s dest mem retd d hpc hop hdu
    have hdec : decode (code.getD pc 0) = Instr.jump := by rw [hop]; rfl
    constructor
    · intro hvalid
      simp only [evmLoop, hdec, hpc, if_true, popW_concat, asUsize, hdu, hvalid,
        Bool.true_eq_false, if_false]
    · intro hinvalid
      simp only [evmLoop, hdec, hpc, if_true, popW_concat, asUsize, hdu, hinvalid,
        if_true]
  · intro fuel pc code w s cond dest mem retd d hpc hop hdu
    have hdec : decode (code.getD pc 0) = Instr.jumpi := by rw [hop]; rfl
    have hsplit : s ++ [cond, dest] = (s ++ [cond]) ++ [dest] := by simp
    refine ⟨fun hinvalid => ?_, fun hvalid hcond => ?_, fun hvalid hcond => ?_⟩
    · simp only [evmLoop, hdec, hpc, if_true, hsplit, popW_concat, asUsize, hdu,
        hinvalid, if_true]
    · simp only [evmLoop, hdec, hpc, if_true, hsplit, popW_concat, asUsize, hdu,
        hvalid, Bool.true_eq_false, if_false, hcond, ne_eq, not_false_iff, if_true]
    · subst hcond
      simp only [evmLoop, hdec, hpc, if_true, hsplit, popW_concat, asUsize, hdu,
        hvalid, Bool.true_eq_false, if_false]
      rw [if_neg (by simp)]
  · intro code q dest hq h60 h7f hlt hle
    cases hv : is_valid_jump_dest code dest with
    | false => rfl
    | true =>
      exfalso
      obtain ⟨hmem, _⟩ := (is_valid_jump_dest_iff code dest).mp hv
      have hgap := scanFrom_gap code (code.length + 1) 0 q dest hq hmem
      have hstep : scanStep code q = q + (code.getD q 0 - 0x60) + 1 + 1 := by
        simp only [scanStep]
        rw [if_pos ⟨h60, h7f⟩]
      omega

/-- C6 witness: JUMP to the valid destination 1 in `0x56 0x5b`; JUMP to the
invalid destination 0 in `0x56`; JUMPI with condition 0 still halting on the
invalid destination 0 in `0x57`; and position 1 (the immediate of the PUSH1
at 0 in `0x60 0x5b`) being invalid although it holds 0x5b. -/
theorem C6_amended_jump_semantics_witness :
    evmLoop 1 [0x56, 0x5b] true 0 ([] ++ [1]) EvmMemory.new [] emptyData =
      evmLoop 0 [0x56, 0x5b] true 1 [] EvmMemory.new [] emptyData ∧
    evmLoop 1 [0x56] true 0 ([] ++ [0]) EvmMemory.new [] emptyData =
      Outcome.ok ⟨none, [], false, []⟩ emptyData ∧
    evmLoop 1 [0x57] true 0 ([] ++ [0, 0]) EvmMemory.new [] emptyData =
      Outcome.ok ⟨none, [], false, []⟩ emptyData ∧
    is_valid_jump_dest [0x60, 0x5b] 1 = false :=
  ⟨(C6_amended_jump_semantics.1 0 0 [0x56, 0x5b] true [] 1 EvmMemory.new []
      emptyData (by decide) rfl (by decide)).1 rfl,
    (C6_amended_jump_semantics.1 0 0 [0x56] true [] 0 EvmMemory.new []
      emptyData (by decide) rfl (by decide)).2 rfl,
    (C6_amended_jump_semantics.2.1 0 0 [0x57] true [] 0 0 EvmMemory.new []
      emptyData (by decide) rfl (by decide)).1 rfl,
    C6_amended_jump_semantics.2.2.2 [0x60, 0x5b] 0 1 (by decide) (by decide)
      (by decide) (by decide) (by decide)⟩
